import Mathlib

set_option maxRecDepth 100000

set_option maxHeartbeats 1600000

/-!
Verification of the `GraphInsights` engine (`theauditor/insights/graph.py`).

Numeric model: Python arithmetic over `int`/`float` is embedded as exact
rational arithmetic (`ℚ`).  All dictionaries keyed by node identifier are
embedded as association lists or functions; Python `set` iteration feeds
only commutative folds (sums, maxima), so a canonical deduplicated list
is an order-faithful embedding.
-/

namespace TheAuditor

/-- A node record: `id`, optional `churn` and `loc` (absent or `None`
embedded as `0`, matching `node.get("churn", 0) or 0`). -/
structure Node where
  id : String
  churn : Int
  loc : Int
  deriving DecidableEq

/-- An edge record with `source` and `target` node identifiers. -/
structure Edge where
  source : String
  target : String
  deriving DecidableEq

/-- A graph: ordered `nodes` and `edges` lists. -/
structure Graph where
  nodes : List Node
  edges : List Edge
  deriving DecidableEq

/-- Damping factor used by `_calculate_centrality` (`damping = 0.85`). -/
def damping : ℚ := 17 / 20

/-- The set of nodes referenced by any edge (`nodes` set built in
`_calculate_centrality` from edge endpoints only), as a deduplicated list. -/
def edgeNodes (g : Graph) : List String :=
  (g.edges.flatMap (fun e => [e.source, e.target])).dedup

/-- Adjacency list `adj[source] = [targets...]` built from the edge list
(targets kept in edge order, duplicates kept). -/
def adj (g : Graph) (s : String) : List String :=
  (g.edges.filter (fun e => e.source == s)).map (fun e => e.target)

/-- The out-count `len(adj[source]) or 1` as a rational. -/
def outCnt (g : Graph) (s : String) : ℚ :=
  if (adj g s).length = 0 then 1 else ((adj g s).length : ℚ)

/-- One synchronous power-iteration step: each new score starts at
`1 - damping` and accrues `damping * scores[source] / out_count` for every
source (edge-referenced node) whose adjacency contains the node. -/
def centStep (g : Graph) (f : String → ℚ) : String → ℚ := fun n =>
  (1 - damping) +
    ((edgeNodes g).map
      (fun s => if n ∈ adj g s then damping * f s / outCnt g s else 0)).sum

/-- Scores after the 10 fixed iterations, starting from the all-ones
initialization of every edge-referenced node. -/
def centralityRaw (g : Graph) : String → ℚ :=
  (centStep g)^[10] (fun _ => 1)

/-- Maximum of a value list, as Python `max` on a non-empty list
(`0` on `[]`, a case the code guards against). -/
def listMaxQ : List ℚ → ℚ
  | [] => 0
  | x :: xs => xs.foldr max x

/-- Embedding of `GraphInsights._calculate_centrality`: power iteration over the
edge-referenced nodes followed by normalization by the maximum score
(skipped when the maximum is not positive); empty graph gives the empty
map. -/
def calculate_centrality (g : Graph) : List (String × ℚ) :=
  let ns := edgeNodes g
  let raw := centralityRaw g
  if ns.isEmpty then []
  else
    let m := listMaxQ (ns.map raw)
    if 0 < m then ns.map (fun n => (n, raw n / m))
    else ns.map (fun n => (n, raw n))

/-- Modelled from the spec (section 4.2 formula): the set of sources `s`
with `n ∈ adj[s]`. -/
def specAdjSources (g : Graph) (n : String) : List String :=
  (edgeNodes g).filter (fun s => decide (n ∈ adj g s))

/-- Modelled from the spec (section 4.2 formula):
`new_score[n] = (1 - 0.85) + 0.85 * Σ_{s : n ∈ adj[s]} score[s] / max(|adj[s]|, 1)`. -/
def specStep (g : Graph) (f : String → ℚ) : String → ℚ := fun n =>
  (1 - 17 / 20) +
    17 / 20 *
      ((specAdjSources g n).map
        (fun s => f s / (((adj g s).length.max 1 : Nat) : ℚ))).sum

/-- Modelled from the spec: 10 synchronous iterations of the spec formula
from the all-ones initialization. -/
def specCentralityRaw (g : Graph) : String → ℚ :=
  (specStep g)^[10] (fun _ => 1)

/-- Weight dictionaries (`dict[str, float]`) as association lists. -/
abbrev WDict := List (String × ℚ)

/-- Embedding of `GraphInsights.DEFAULT_WEIGHTS`. -/
def DEFAULT_WEIGHTS : WDict :=
  [("in_degree", 3 / 10), ("out_degree", 1 / 5), ("centrality", 3 / 10),
   ("churn", 1 / 10), ("loc", 1 / 10)]

/-- Dictionary lookup for a weight key. -/
def wGet (w : WDict) (k : String) : ℚ := (w.lookup k).getD 0

/-- Embedding of `GraphInsights.__init__`: `self.weights = weights or self.DEFAULT_WEIGHTS`
(`None` and the empty dict are both falsy and fall back to the defaults). -/
def initWeights : Option WDict → WDict
  | none => DEFAULT_WEIGHTS
  | some w => if w.isEmpty then DEFAULT_WEIGHTS else w

/-- In-degree of a node: edges of the import graph targeting it, plus edges
of the call graph when one is supplied (an absent or empty call graph
contributes nothing). -/
def inDegree (ig : Graph) (cg : Option Graph) (n : String) : Nat :=
  (ig.edges.filter (fun e => e.target == n)).length +
    (match cg with
     | some c => (c.edges.filter (fun e => e.target == n)).length
     | none => 0)

/-- Out-degree of a node over the import graph plus the optional call graph. -/
def outDegree (ig : Graph) (cg : Option Graph) (n : String) : Nat :=
  (ig.edges.filter (fun e => e.source == n)).length +
    (match cg with
     | some c => (c.edges.filter (fun e => e.source == n)).length
     | none => 0)

/-- A hotspot record `{id, in_degree, out_degree, centrality, churn, loc, score}`. -/
structure Hotspot where
  id : String
  in_degree : Nat
  out_degree : Nat
  centrality : ℚ
  churn : Int
  loc : Int
  score : ℚ
  deriving DecidableEq

/-- The weighted hotspot score formula of `rank_hotspots`. -/
def hotspotScore (w : WDict) (indeg outdeg : Nat) (cent : ℚ) (churn loc : Int) : ℚ :=
  wGet w "in_degree" * indeg + wGet w "out_degree" * outdeg +
    wGet w "centrality" * cent + wGet w "churn" * ((churn : ℚ) / 100) +
    wGet w "loc" * ((loc : ℚ) / 1000)

/-- The hotspot list in node-list order, before sorting (the loop body of
`rank_hotspots`); centrality comes from the import graph only, with
`centrality.get(node_id, 0)`. -/
def buildHotspots (w : WDict) (ig : Graph) (cg : Option Graph) : List Hotspot :=
  let cent := calculate_centrality ig
  ig.nodes.map (fun node =>
    let indeg := inDegree ig cg node.id
    let outdeg := outDegree ig cg node.id
    let c := ((cent.lookup node.id).getD 0)
    { id := node.id, in_degree := indeg, out_degree := outdeg,
      centrality := c, churn := node.churn, loc := node.loc,
      score := hotspotScore w indeg outdeg c node.churn node.loc })

/-- Sorting relation for hotspots: descending score. -/
def hsRel (a b : Hotspot) : Prop := b.score ≤ a.score

instance : DecidableRel hsRel := fun a b =>
  inferInstanceAs (Decidable (b.score ≤ a.score))

instance : IsTotal Hotspot hsRel := ⟨fun a b => le_total b.score a.score⟩

instance : IsTrans Hotspot hsRel := ⟨fun _ _ _ hab hbc => le_trans hbc hab⟩

/-- Embedding of `GraphInsights.rank_hotspots`: the built hotspot list, stably sorted by
score descending (`list.sort(key=..., reverse=True)` is a stable sort;
insertion sort with ties placed after earlier elements realizes it). -/
def rank_hotspots (w : WDict) (ig : Graph) (cg : Option Graph) : List Hotspot :=
  List.insertionSort hsRel (buildHotspots w ig cg)

/-- A cycle record `{nodes, size}` supplied by the external detector. -/
structure Cycle where
  nodes : List String
  size : Nat
  deriving DecidableEq

/-- A layer map: layer key to list of node identifiers. -/
abbrev Layers := List (Int × List String)

/-- Python truthiness of an optional list argument. -/
def truthyList {α : Type} : Option (List α) → Bool
  | some l => !l.isEmpty
  | none => false

/-- The length `len(cycles)` under the truthy guard (`0` when absent). -/
def cyLen : Option (List Cycle) → Nat
  | some cs => cs.length
  | none => 0

/-- Graph density with the divide-by-zero fallback:
`edges / (nodes*(nodes-1))` when `nodes > 1`, else `edges / 1`. -/
def densityOf (g : Graph) : ℚ :=
  let n := g.nodes.length
  let e := g.edges.length
  let m : Nat := if 1 < n then n * (n - 1) else 1
  if 0 < m then (e : ℚ) / (m : ℚ) else 0

/-- Cycle penalty `min(len(cycles) * 5, 30)`, applied only when cycles are
truthy. -/
def cyclePenalty (cycles : Option (List Cycle)) : ℚ :=
  if truthyList cycles then min ((cyLen cycles : ℚ) * 5) 30 else 0

/-- Density penalty `min((density - 0.3) * 100, 20)` when `density > 0.3`. -/
def densityPenalty (d : ℚ) : ℚ :=
  if 3 / 10 < d then min ((d - 3 / 10) * 100) 20 else 0

/-- Hotspot penalty `min(in_degree // 10, 20)` when the top hotspot has
`in_degree > 50`. -/
def hotspotPenalty (hotspots : Option (List Hotspot)) : ℚ :=
  match hotspots with
  | some (h :: _) =>
      if 50 < h.in_degree then min (((h.in_degree / 10 : Nat)) : ℚ) 20 else 0
  | _ => 0

/-- The letter grade thresholds. -/
def healthGrade (q : ℚ) : String :=
  if 90 ≤ q then "A"
  else if 80 ≤ q then "B"
  else if 70 ≤ q then "C"
  else if 60 ≤ q then "D"
  else "F"

/-- The fragility accumulator: hotspot term, cycle term and coupling term,
each capped before summation. -/
def fragilityRaw (d : ℚ) (cycles : Option (List Cycle))
    (hotspots : Option (List Hotspot)) : ℚ :=
  (match hotspots with
   | some (h :: _) => min (h.score * 10) 40
   | _ => 0) +
    (if truthyList cycles then min ((cyLen cycles : ℚ) * 3) 30 else 0) +
    min (d * 100) 30

/-- The health-metrics record returned by `calculate_health_metrics`. -/
structure HealthMetrics where
  health_score : ℚ
  health_grade : String
  fragility_score : ℚ
  density : ℚ
  cycle_free : Bool
  well_layered : Bool
  loosely_coupled : Bool
  no_god_objects : Bool
  deriving DecidableEq

/-- Maximum of an integer list, as Python `max` on a non-empty list. -/
def listMaxI : List Int → Int
  | [] => 0
  | x :: xs => xs.foldr max x

/-- Embedding of `GraphInsights.calculate_health_metrics`. -/
def calculate_health_metrics (ig : Graph) (cycles : Option (List Cycle))
    (hotspots : Option (List Hotspot)) (layers : Option Layers) : HealthMetrics :=
  let density := densityOf ig
  let hs := 100 - cyclePenalty cycles - densityPenalty density -
    hotspotPenalty hotspots
  { health_score := max hs 0,
    health_grade := healthGrade hs,
    fragility_score := min (fragilityRaw density cycles hotspots) 100,
    density := density,
    cycle_free := if truthyList cycles then decide (cyLen cycles = 0) else true,
    well_layered :=
      match layers with
      | some ls =>
          if ls.isEmpty then false
          else decide (2 < ls.length ∧ listMaxI (ls.map Prod.fst) < 10)
      | none => false,
    loosely_coupled := decide (density < 1 / 5),
    no_god_objects :=
      match hotspots with
      | some (h :: _) => decide (h.in_degree < 30)
      | _ => true }

/-- A single-quote string, for rebuilding the Python f-string around the
hotspot identifier. -/
def squote : String := String.singleton (Char.ofNat 39)

/-- Two-decimal formatting of a non-negative rational, embedding the
`"{:.2f}".format(density)` rendering: round the exact value to hundredths
with ties going to the even hundredth, as Python decimal formatting does
(representation error of binary floats is outside the numeric model, as
declared in the module header). -/
def fmt2 (q : ℚ) : String :=
  let t := q * 100
  let n : Int := ⌊t⌋
  let c : Int :=
    if t - (n : ℚ) < 1 / 2 then n
    else if 1 / 2 < t - (n : ℚ) then n + 1
    else if n % 2 = 0 then n else n + 1
  let ip := c / 100
  let fp := c % 100
  toString ip ++ "." ++ (if fp < 10 then "0" ++ toString fp else toString fp)

/-- The cycle-breaking recommendation string. -/
def recCycles (n : Nat) : String :=
  "Break " ++ toString n ++ " dependency cycles to improve maintainability"

/-- The coupling-reduction recommendation string. -/
def recCoupling (d : ℚ) : String :=
  "Reduce coupling between modules (current density: " ++ fmt2 d ++ ")"

/-- The hotspot-refactor recommendation string. -/
def recHotspot (h : Hotspot) : String :=
  "Refactor hotspot " ++ squote ++ h.id ++ squote ++ " with " ++
    toString h.in_degree ++ " dependencies"

/-- The layering recommendation string. -/
def recLayers : String :=
  "Consider introducing more architectural layers for better separation"

/-- Guard of the cycle-breaking rule (`cycles and len(cycles) > 0`). -/
def condCyc : Option (List Cycle) → Bool
  | some cs => decide (0 < cs.length)
  | none => false

/-- Guard of the coupling-reduction rule (`density > 0.3`). -/
def condDen (ig : Graph) : Bool := decide (3 / 10 < densityOf ig)

/-- Guard of the hotspot-refactor rule
(`hotspots and len(hotspots) > 0 and hotspots[0]["in_degree"] > 30`). -/
def condHot : Option (List Hotspot) → Bool
  | some (h :: _) => decide (30 < h.in_degree)
  | _ => false

/-- Guard of the layering rule (`layers and len(layers) <= 2`). -/
def condLay : Option Layers → Bool
  | some ls => decide (ls ≠ [] ∧ ls.length ≤ 2)
  | none => false

/-- Embedding of `GraphInsights.generate_recommendations`: the four rules,
appended in their fixed order, each guard a literal translation of the
Python condition including truthiness of the optional arguments. -/
def generate_recommendations (ig : Graph) (cycles : Option (List Cycle))
    (hotspots : Option (List Hotspot)) (layers : Option Layers) : List String :=
  (match cycles with
   | some cs => if 0 < cs.length then [recCycles cs.length] else []
   | none => []) ++
    (if 3 / 10 < densityOf ig then [recCoupling (densityOf ig)] else []) ++
    (match hotspots with
     | some (h :: _) => if 30 < h.in_degree then [recHotspot h] else []
     | _ => []) ++
    (match layers with
     | some ls => if ls ≠ [] ∧ ls.length ≤ 2 then [recLayers] else []
     | none => [])

/-- Neutral hotspot record, read only when no top hotspot exists. -/
def defaultHotspot : Hotspot :=
  { id := "", in_degree := 0, out_degree := 0, centrality := 0, churn := 0,
    loc := 0, score := 0 }

/-- First hotspot of the optional list (the neutral record when absent). -/
def headHot : Option (List Hotspot) → Hotspot
  | some (h :: _) => h
  | _ => defaultHotspot

/-- The candidate recommendation strings in rule order. -/
def recCandidates (ig : Graph) (cycles : Option (List Cycle))
    (hotspots : Option (List Hotspot)) : List String :=
  [recCycles (cyLen cycles), recCoupling (densityOf ig),
   recHotspot (headHot hotspots), recLayers]

/-- The `cycles` entry of the summary built by `GraphInsights.summarize`:
`total`, `largest` (the size of the first supplied cycle) and
`nodes_in_cycles` (distinct node ids across all cycles). -/
structure CyclesStat where
  total : Nat
  largest : Nat
  nodes_in_cycles : Nat
  deriving DecidableEq

/-- The cycle-statistics block of `GraphInsights.summarize` for a supplied
cycles list (`total = len(cycles)`, `largest = cycles[0]["size"] if cycles
else 0`, `nodes_in_cycles = len(set(node for cycle ... for node ...))`). -/
def summarizeCycles (cycles : List Cycle) : CyclesStat :=
  { total := cycles.length,
    largest := match cycles with
      | [] => 0
      | c :: _ => c.size,
    nodes_in_cycles := ((cycles.flatMap (fun c => c.nodes)).dedup).length }

/-- Embedding of `GraphInsights.calculate_impact_ratio`: `len(all_impacted) / total_nodes`
with the `total_nodes == 0` short-circuit to `0.0`; `targets` is accepted
but unused. -/
def calculate_impact_ratio (targets : List String) (all_impacted : Finset String)
    (total_nodes : Nat) : ℚ :=
  if total_nodes = 0 then 0 else ((all_impacted.card : ℚ) / (total_nodes : ℚ))

/-- A hotspot record in the shape read by `interpret_graph_summary`
(`in_degree` and `total_connections`, each defaulting to 0). -/
structure SummaryHotspot where
  in_degree : Int
  total_connections : Int
  deriving DecidableEq

/-- The `statistics` sub-record of the raw summary: `graph_density` plus
untouched other statistics entries. -/
structure Statistics where
  graph_density : ℚ
  srest : List (String × ℚ)
  deriving DecidableEq

/-- The `architectural_insights` record added by `interpret_graph_summary`. -/
structure Insights where
  coupling_level : String
  potential_god_objects : Nat
  highly_connected : Nat
  deriving DecidableEq

/-- The raw summary object consumed by `interpret_graph_summary`:
the fields the method reads or writes, plus `rest` for every other field
of the object. -/
structure GraphData where
  statistics : Option Statistics
  top_hotspots : List SummaryHotspot
  architectural_insights : Option Insights
  rest : List (String × String)
  deriving DecidableEq

/-- The density read `graph_data.get("statistics", {}).get("graph_density", 0)`. -/
def gdDensity (gd : GraphData) : ℚ :=
  match gd.statistics with
  | some s => s.graph_density
  | none => 0

/-- The insights record computed by `interpret_graph_summary`. -/
def insightsOf (gd : GraphData) : Insights :=
  { coupling_level :=
      if 3 / 10 < gdDensity gd then "high"
      else if 1 / 10 < gdDensity gd then "medium"
      else "low",
    potential_god_objects :=
      (gd.top_hotspots.filter (fun h => decide (30 < h.in_degree))).length,
    highly_connected :=
      (gd.top_hotspots.filter (fun h => decide (20 < h.total_connections))).length }

/-- Embedding of `GraphInsights.interpret_graph_summary`: stores the insights under
`architectural_insights` and returns the augmented object. -/
def interpret_graph_summary (gd : GraphData) : GraphData :=
  { gd with architectural_insights := some (insightsOf gd) }

def g1 : Graph :=
  { nodes := [{ id := "a", churn := 0, loc := 0 }],
    edges := [{ source := "a", target := "a" }] }

def gScn : Graph :=
  { nodes := [{ id := "n1", churn := 0, loc := 0 }, { id := "n2", churn := 0, loc := 0 },
              { id := "n3", churn := 0, loc := 0 }, { id := "n4", churn := 0, loc := 0 },
              { id := "n5", churn := 0, loc := 0 }],
    edges := [{ source := "n1", target := "n2" }, { source := "n1", target := "n3" },
              { source := "n1", target := "n4" }, { source := "n1", target := "n5" },
              { source := "n2", target := "n3" }, { source := "n2", target := "n4" },
              { source := "n2", target := "n5" }, { source := "n3", target := "n4" }] }

def h40 : Hotspot :=
  { id := "n1", in_degree := 40, out_degree := 0, centrality := 0, churn := 0,
    loc := 0, score := 0 }

def lay2 : Layers := [(0, ["n1"]), (1, ["n2"])]

def cyc12 : Cycle := { nodes := ["n1", "n2"], size := 2 }

/-- Concrete cycle with two nodes, used by the summary-statistics claims. -/
def cycA : Cycle := { nodes := ["a", "b"], size := 2 }

/-- Concrete cycle with three nodes, used by the summary-statistics claims. -/
def cycB : Cycle := { nodes := ["c", "d", "e"], size := 3 }

/-- Condition under which the amended fragility lower bound holds: when
hotspots are supplied, the first has a non-negative score. -/
def topScoreOK : Option (List Hotspot) → Bool
  | some (h :: _) => decide (0 ≤ h.score)
  | _ => true

/-- A caller-supplied hotspot record with a negative score. -/
def badHot : Hotspot :=
  { id := "x", in_degree := 0, out_degree := 0, centrality := 0, churn := 0,
    loc := 0, score := -1 }

/-- The three-node ring graph of the health scenario. -/
def g3x : Graph :=
  { nodes := [{ id := "A", churn := 0, loc := 0 }, { id := "B", churn := 0, loc := 0 },
              { id := "C", churn := 0, loc := 0 }],
    edges := [{ source := "A", target := "B" }, { source := "B", target := "C" },
              { source := "C", target := "A" }] }

theorem le_foldr_max (x : ℚ) : ∀ (xs : List ℚ) (a : ℚ), a = x ∨ a ∈ xs → a ≤ xs.foldr max x := by
  intro xs
  induction xs with
  | nil =>
    intro a h
    rcases h with h | h
    · exact le_of_eq h
    · cases h
  | cons y ys ih =>
    intro a h
    simp only [List.foldr_cons]
    rcases h with h | h
    · exact le_trans (ih a (Or.inl h)) (le_max_right _ _)
    · rcases List.mem_cons.mp h with h | h
      · exact h ▸ le_max_left _ _
      · exact le_trans (ih a (Or.inr h)) (le_max_right _ _)

theorem le_listMaxQ {l : List ℚ} {a : ℚ} (h : a ∈ l) : a ≤ listMaxQ l := by
  cases l with
  | nil => cases h
  | cons x xs =>
    rcases List.mem_cons.mp h with h | h
    · exact le_foldr_max x xs a (Or.inl h)
    · exact le_foldr_max x xs a (Or.inr h)

theorem foldr_max_mem (x : ℚ) : ∀ (xs : List ℚ), xs.foldr max x ∈ x :: xs := by
  intro xs
  induction xs with
  | nil => simp
  | cons y ys ih =>
    simp only [List.foldr_cons]
    rcases le_total (ys.foldr max x) y with h | h
    · rw [max_eq_left h]
      exact List.mem_cons_of_mem _ (List.mem_cons_self _ _)
    · rw [max_eq_right h]
      rcases List.mem_cons.mp ih with h2 | h2
      · rw [h2]
        exact List.mem_cons_self _ _
      · exact List.mem_cons_of_mem _ (List.mem_cons_of_mem _ h2)

theorem listMaxQ_mem : ∀ {l : List ℚ}, l ≠ [] → listMaxQ l ∈ l := by
  intro l h
  cases l with
  | nil => exact absurd rfl h
  | cons x xs => exact foldr_max_mem x xs

theorem outCnt_pos (g : Graph) (s : String) : 0 < outCnt g s := by
  unfold outCnt
  split
  · norm_num
  · rename_i h
    exact_mod_cast Nat.pos_of_ne_zero h

theorem centStep_ge (g : Graph) (f : String → ℚ) (hf : ∀ s, 0 ≤ f s) (n : String) :
    1 - damping ≤ centStep g f n := by
  unfold centStep
  have h : 0 ≤ ((edgeNodes g).map
      (fun s => if n ∈ adj g s then damping * f s / outCnt g s else 0)).sum := by
    apply List.sum_nonneg
    intro x hx
    rcases List.mem_map.mp hx with ⟨s, _, rfl⟩
    split
    · exact div_nonneg (mul_nonneg (by norm_num [damping]) (hf s)) (le_of_lt (outCnt_pos g s))
    · exact le_refl 0
  linarith

theorem centIter_nonneg (g : Graph) :
    ∀ (k : Nat) (n : String), 0 ≤ (centStep g)^[k] (fun _ => 1) n := by
  intro k
  induction k with
  | zero =>
    intro n
    norm_num
  | succ k ih =>
    intro n
    rw [Function.iterate_succ_apply']
    have h1 := centStep_ge g _ ih n
    have h2 : (0 : ℚ) ≤ 1 - damping := by norm_num [damping]
    linarith

theorem centralityRaw_ge (g : Graph) (n : String) : 1 - damping ≤ centralityRaw g n := by
  unfold centralityRaw
  rw [show (10 : Nat) = 9 + 1 from rfl, Function.iterate_succ_apply']
  exact centStep_ge g _ (centIter_nonneg g 9) n

theorem centralityRaw_nonneg (g : Graph) (n : String) : 0 ≤ centralityRaw g n :=
  centIter_nonneg g 10 n

theorem lookup_eq_none_of_not_mem_keys {l : List (String × ℚ)} {n : String}
    (h : n ∉ l.map Prod.fst) : l.lookup n = none := by
  induction l with
  | nil => rfl
  | cons p ps ih =>
    simp only [List.map_cons, List.mem_cons] at h
    push_neg at h
    have hne : (n == p.1) = false := beq_eq_false_iff_ne.mpr h.1
    cases p with
    | mk k v =>
      simp only [List.lookup]
      simp only at hne
      rw [hne]
      exact ih h.2

theorem sum_ite_eq_filter (l : List String) (p : String → Prop) [DecidablePred p]
    (f : String → ℚ) :
    (l.map (fun x => if p x then f x else 0)).sum =
      ((l.filter (fun x => decide (p x))).map f).sum := by
  induction l with
  | nil => rfl
  | cons x xs ih =>
    by_cases h : p x
    · simp [h, ih, List.filter_cons]
    · simp [h, ih, List.filter_cons]

theorem outCnt_eq_max (g : Graph) (s : String) :
    outCnt g s = (((adj g s).length.max 1 : Nat) : ℚ) := by
  unfold outCnt
  rcases Nat.eq_zero_or_pos (adj g s).length with h | h
  · rw [if_pos h, h]
    norm_num
  · rw [if_neg (Nat.pos_iff_ne_zero.mp h)]
    congr 1
    exact (Nat.max_eq_left h).symm

theorem centStep_eq_spec (g : Graph) (f : String → ℚ) : centStep g f = specStep g f := by
  funext n
  unfold centStep specStep specAdjSources
  rw [sum_ite_eq_filter _ (fun s => n ∈ adj g s)]
  rw [← List.sum_map_mul_left]
  have heq : (fun s => damping * f s / outCnt g s) =
      (fun s => 17 / 20 * (f s / ((((adj g s).length.max 1 : Nat)) : ℚ))) := by
    funext s
    rw [outCnt_eq_max]
    unfold damping
    rw [mul_div_assoc]
  rw [heq]
  norm_num [damping]

/-- Claim C1: for every graph, the centrality computation builds its node
set and adjacency from the edge list only (its key set is exactly the
edge-referenced nodes, so a node with no incident edge receives no entry),
and its pre-normalization scores are exactly 10 synchronous iterations of
`new_score[n] = (1 - 0.85) + 0.85 * sum over sources s with n in adj[s] of
score[s] / max(|adj[s]|, 1)` starting from the all-ones initialization of
every edge-referenced node. -/
theorem centrality_follows_spec (g : Graph) :
    ((calculate_centrality g).map Prod.fst = edgeNodes g) ∧
    (∀ n, n ∉ edgeNodes g → (calculate_centrality g).lookup n = none) ∧
    (∀ n, centralityRaw g n = specCentralityRaw g n) := by
  have hkeys : (calculate_centrality g).map Prod.fst = edgeNodes g := by
    unfold calculate_centrality
    by_cases he : (edgeNodes g).isEmpty
    · rw [if_pos he]
      exact (List.isEmpty_iff.mp he).symm
    · rw [if_neg he]
      dsimp only
      split
      · rw [List.map_map]
        exact List.map_id _
      · rw [List.map_map]
        exact List.map_id _
  refine ⟨hkeys, ?_, ?_⟩
  · intro n hn
    apply lookup_eq_none_of_not_mem_keys
    rw [hkeys]
    exact hn
  · intro n
    unfold centralityRaw specCentralityRaw
    have hstep : centStep g = specStep g := funext (centStep_eq_spec g)
    rw [hstep]

/-- Witness for C1 at a concrete graph and node. -/
theorem centrality_follows_spec_witness :
    (calculate_centrality g1).lookup "z" = none :=
  (centrality_follows_spec g1).2.1 "z" (by decide)

/-- Claim C7: for every graph with at least one edge, the centrality map is
non-empty, every value lies in [0, 1], and some value equals exactly 1
(the post-normalization maximum); for a graph with no edges the map is
empty. -/
theorem centrality_normalized (g : Graph) :
    (g.edges = [] → calculate_centrality g = []) ∧
    (g.edges ≠ [] →
      calculate_centrality g ≠ [] ∧
      (∀ p ∈ calculate_centrality g, 0 ≤ p.2 ∧ p.2 ≤ 1) ∧
      (∃ p ∈ calculate_centrality g, p.2 = 1)) := by
  constructor
  · intro h
    unfold calculate_centrality edgeNodes
    rw [h]
    rfl
  · intro h
    have hne : edgeNodes g ≠ [] := by
      rcases List.exists_mem_of_ne_nil g.edges h with ⟨e, he⟩
      intro hcon
      have : e.source ∈ edgeNodes g := by
        unfold edgeNodes
        rw [List.mem_dedup]
        exact List.mem_flatMap.mpr ⟨e, he, by simp⟩
      rw [hcon] at this
      cases this
    have hmapne : (edgeNodes g).map (centralityRaw g) ≠ [] := by
      simpa using hne
    have hd : (0 : ℚ) < 1 - damping := by norm_num [damping]
    have hm : 0 < listMaxQ ((edgeNodes g).map (centralityRaw g)) := by
      rcases List.exists_mem_of_ne_nil _ hne with ⟨n0, hn0⟩
      have h1 : centralityRaw g n0 ≤ listMaxQ ((edgeNodes g).map (centralityRaw g)) :=
        le_listMaxQ (List.mem_map_of_mem _ hn0)
      have h2 := centralityRaw_ge g n0
      linarith
    have hform : calculate_centrality g = (edgeNodes g).map
        (fun n => (n, centralityRaw g n / listMaxQ ((edgeNodes g).map (centralityRaw g)))) := by
      unfold calculate_centrality
      rw [if_neg (by simpa [List.isEmpty_iff] using hne)]
      dsimp only
      rw [if_pos hm]
    refine ⟨?_, ?_, ?_⟩
    · rw [hform]
      simpa using hne
    · intro p hp
      rw [hform] at hp
      rcases List.mem_map.mp hp with ⟨n, hn, rfl⟩
      constructor
      · exact div_nonneg (centralityRaw_nonneg g n) (le_of_lt hm)
      · rw [div_le_one hm]
        exact le_listMaxQ (List.mem_map_of_mem _ hn)
    · have hmem := listMaxQ_mem hmapne
      rcases List.mem_map.mp hmem with ⟨n0, hn0, hval⟩
      refine ⟨(n0, centralityRaw g n0 / listMaxQ ((edgeNodes g).map (centralityRaw g))), ?_, ?_⟩
      · rw [hform]
        exact List.mem_map_of_mem _ hn0
      · simp only
        rw [hval]
        exact div_self (ne_of_gt hm)

/-- Witness for C7 at a concrete one-edge graph. -/
theorem centrality_normalized_witness :
    calculate_centrality g1 ≠ [] :=
  ((centrality_normalized g1).2 (by decide)).1

theorem filter_orderedInsert_neg {α : Type} (r : α → α → Prop) [DecidableRel r]
    (p : α → Bool) (a : α) (h : p a = false) :
    ∀ l, (List.orderedInsert r a l).filter p = l.filter p := by
  intro l
  induction l with
  | nil => simp [List.orderedInsert, h]
  | cons b bs ih =>
    by_cases hr : r a b
    · simp [List.orderedInsert, hr, h]
    · simp only [List.orderedInsert, if_neg hr, List.filter_cons]
      rw [ih]

theorem filter_orderedInsert_pos {α : Type} (r : α → α → Prop) [DecidableRel r]
    (p : α → Bool) (a : α) (ha : p a = true) (hcomp : ∀ b, ¬ r a b → p b = false) :
    ∀ l, (List.orderedInsert r a l).filter p = a :: l.filter p := by
  intro l
  induction l with
  | nil => simp [List.orderedInsert, ha]
  | cons b bs ih =>
    by_cases hr : r a b
    · simp [List.orderedInsert, hr, ha]
    · have hb := hcomp b hr
      simp only [List.orderedInsert, if_neg hr, List.filter_cons, hb]
      simp only [Bool.false_eq_true, if_false]
      rw [ih]

theorem filter_insertionSort {α : Type} (r : α → α → Prop) [DecidableRel r]
    (p : α → Bool) (hcomp : ∀ a b, p a = true → ¬ r a b → p b = false) :
    ∀ l, (List.insertionSort r l).filter p = l.filter p := by
  intro l
  induction l with
  | nil => rfl
  | cons a as ih =>
    simp only [List.insertionSort]
    by_cases ha : p a
    · rw [filter_orderedInsert_pos r p a ha (fun b => hcomp a b ha), ih,
        List.filter_cons, ha]
      simp
    · have ha2 : p a = false := by simpa using ha
      rw [filter_orderedInsert_neg r p a ha2, ih, List.filter_cons, ha2]
      simp

/-- Claim C8: for every import graph, call graph and weight configuration,
the ranked hotspot list has one record per entry of the node list, is a
permutation of the per-node records, is sorted by score descending
(adjacent pairs satisfy the sortedness relation), and records with equal
scores retain their original node-list order (stable sort). -/
theorem rank_hotspots_sorted_stable (w : WDict) (ig : Graph) (cg : Option Graph) :
    (rank_hotspots w ig cg).length = ig.nodes.length ∧
    (rank_hotspots w ig cg).Perm (buildHotspots w ig cg) ∧
    List.Sorted hsRel (rank_hotspots w ig cg) ∧
    (∀ s : ℚ, (rank_hotspots w ig cg).filter (fun h => decide (h.score = s)) =
      (buildHotspots w ig cg).filter (fun h => decide (h.score = s))) := by
  refine ⟨?_, ?_, ?_, ?_⟩
  · unfold rank_hotspots
    rw [(List.perm_insertionSort hsRel _).length_eq]
    unfold buildHotspots
    simp
  · exact List.perm_insertionSort hsRel _
  · exact List.sorted_insertionSort hsRel _
  · intro s
    apply filter_insertionSort
    intro a b ha hr
    have h1 : a.score = s := of_decide_eq_true ha
    have h2 : a.score < b.score := lt_of_not_le (fun hc => hr hc)
    apply decide_eq_false
    intro hc
    rw [hc] at h2
    exact absurd h1 (ne_of_lt h2)

/-- Counterexample for C2 as stated: with the supplied cycles ordered
smallest first, `largest` is the first size 2, not the maximum size 3. -/
theorem summarize_largest_counterexample :
    (summarizeCycles [cycA, cycB]).largest = 2 ∧
    (([cycA, cycB] : List Cycle).map (fun c => c.size)).foldr Nat.max 0 = 3 ∧
    (summarizeCycles [cycA, cycB]).largest ≠
      (([cycA, cycB] : List Cycle).map (fun c => c.size)).foldr Nat.max 0 := by
  decide

theorem foldr_max_le_nat (b : Nat) : ∀ (l : List Nat), (∀ x ∈ l, x ≤ b) → l.foldr Nat.max 0 ≤ b := by
  intro l
  induction l with
  | nil =>
    intro _
    exact Nat.zero_le b
  | cons x xs ih =>
    intro h
    simp only [List.foldr_cons]
    exact Nat.max_le.mpr ⟨h x (List.mem_cons_self _ _), ih (fun y hy => h y (List.mem_cons_of_mem _ hy))⟩

/-- Claim C2 (amended): for every supplied cycles list, the cycles entry
of the summary has `total` equal to the number of cycles,
`nodes_in_cycles` equal to the number of distinct node ids across all
cycles, and `largest` equal to the size of the FIRST cycle (0 when there
are none), which equals the size of the largest cycle whenever the list is
ordered by non-increasing size. -/
theorem summarize_cycles_stats (cycles : List Cycle) :
    (summarizeCycles cycles).total = cycles.length ∧
    (summarizeCycles cycles).nodes_in_cycles =
      ((cycles.flatMap (fun c => c.nodes)).toFinset).card ∧
    (summarizeCycles cycles).largest =
      (match cycles with
       | [] => 0
       | c :: _ => c.size) ∧
    (List.Pairwise (fun a b => b.size ≤ a.size) cycles →
      (summarizeCycles cycles).largest = (cycles.map (fun c => c.size)).foldr Nat.max 0) := by
  refine ⟨rfl, ?_, rfl, ?_⟩
  · unfold summarizeCycles
    rw [List.card_toFinset]
  · intro hsorted
    cases cycles with
    | nil => rfl
    | cons c cs =>
      have hle : ∀ x ∈ cs.map (fun c => c.size), x ≤ c.size := by
        intro x hx
        rcases List.mem_map.mp hx with ⟨d, hd, rfl⟩
        exact (List.pairwise_cons.mp hsorted).1 d hd
      have h1 : (cs.map (fun c => c.size)).foldr Nat.max 0 ≤ c.size :=
        foldr_max_le_nat c.size _ hle
      show c.size = Nat.max c.size ((cs.map (fun c => c.size)).foldr Nat.max 0)
      exact (Nat.max_eq_left h1).symm

/-- Witness for C2 (amended) on a size-sorted cycles list. -/
theorem summarize_cycles_stats_witness :
    (summarizeCycles [cycB, cycA]).largest =
      (([cycB, cycA] : List Cycle).map (fun c => c.size)).foldr Nat.max 0 :=
  (summarize_cycles_stats [cycB, cycA]).2.2.2 (by decide)

/-- Counterexample for C3 as stated: two impacted nodes against a node
total of 1 give ratio 2, outside [0, 1]. -/
theorem impact_ratio_counterexample :
    1 < calculate_impact_ratio [] (insert "a" {"b"}) 1 := by
  with_unfolding_all decide

/-- Claim C3 (amended): the impact ratio equals `|impacted| / total_nodes`
(0 when `total_nodes = 0`), is always non-negative, and is at most 1
whenever the impacted set is no larger than the node total. -/
theorem impact_ratio_bounds (t : List String) (s : Finset String) (n : Nat) :
    calculate_impact_ratio t s n = (if n = 0 then 0 else ((s.card : ℚ) / (n : ℚ))) ∧
    0 ≤ calculate_impact_ratio t s n ∧
    (s.card ≤ n → calculate_impact_ratio t s n ≤ 1) := by
  refine ⟨rfl, ?_, ?_⟩
  · unfold calculate_impact_ratio
    split
    · exact le_refl 0
    · positivity
  · intro h
    unfold calculate_impact_ratio
    split
    · norm_num
    · rename_i hn
      rw [div_le_one (by exact_mod_cast Nat.pos_of_ne_zero hn)]
      exact_mod_cast h

/-- Witness for C3 (amended) at a concrete input with ratio 1/2. -/
theorem impact_ratio_bounds_witness :
    calculate_impact_ratio [] (insert "a" {"b"}) 4 ≤ 1 :=
  (impact_ratio_bounds [] (insert "a" {"b"}) 4).2.2 (by decide)

theorem densityOf_nonneg (g : Graph) : 0 ≤ densityOf g := by
  unfold densityOf
  dsimp only
  split <;> split <;> positivity

theorem cyclePenalty_nonneg (cycles : Option (List Cycle)) : 0 ≤ cyclePenalty cycles := by
  unfold cyclePenalty
  split
  · exact le_min (by positivity) (by norm_num)
  · exact le_refl 0

theorem densityPenalty_nonneg (d : ℚ) : 0 ≤ densityPenalty d := by
  unfold densityPenalty
  split
  · rename_i h
    refine le_min (by nlinarith) (by norm_num)
  · exact le_refl 0

theorem hotspotPenalty_nonneg (hotspots : Option (List Hotspot)) :
    0 ≤ hotspotPenalty hotspots := by
  unfold hotspotPenalty
  rcases hotspots with _ | hl
  · exact le_refl 0
  · rcases hl with _ | ⟨h, hs⟩
    · exact le_refl 0
    · dsimp only
      split
      · exact le_min (by positivity) (by norm_num)
      · exact le_refl 0

theorem fragilityRaw_nonneg (d : ℚ) (hd : 0 ≤ d) (cycles : Option (List Cycle))
    (hotspots : Option (List Hotspot)) (hok : topScoreOK hotspots = true) :
    0 ≤ fragilityRaw d cycles hotspots := by
  unfold fragilityRaw
  have h1 : 0 ≤ (match hotspots with
      | some (h :: _) => min (h.score * 10) 40
      | _ => (0 : ℚ)) := by
    rcases hotspots with _ | hl
    · exact le_refl 0
    · rcases hl with _ | ⟨h, hs⟩
      · exact le_refl 0
      · have : (0 : ℚ) ≤ h.score := of_decide_eq_true hok
        exact le_min (by nlinarith) (by norm_num)
  have h2 : 0 ≤ (if truthyList cycles then min ((cyLen cycles : ℚ) * 3) 30 else 0) := by
    split
    · exact le_min (by positivity) (by norm_num)
    · exact le_refl 0
  have h3 : (0 : ℚ) ≤ min (d * 100) 30 := le_min (by positivity) (by norm_num)
  linarith

theorem fragilityRaw_le (d : ℚ) (cycles : Option (List Cycle))
    (hotspots : Option (List Hotspot)) : fragilityRaw d cycles hotspots ≤ 100 := by
  unfold fragilityRaw
  have h1 : (match hotspots with
      | some (h :: _) => min (h.score * 10) 40
      | _ => (0 : ℚ)) ≤ 40 := by
    rcases hotspots with _ | hl
    · norm_num
    · rcases hl with _ | ⟨h, hs⟩
      · norm_num
      · exact le_trans (min_le_right _ _) (by norm_num)
  have h2 : (if truthyList cycles then min ((cyLen cycles : ℚ) * 3) 30 else 0) ≤ 30 := by
    split
    · exact min_le_right _ _
    · norm_num
  have h3 : min (d * 100) 30 ≤ 30 := min_le_right _ _
  linarith

/-- Claim C5 (amended): health_score always lies in [0, 100] and
fragility_score is always at most 100; fragility_score is non-negative
provided the first supplied hotspot (if any) has a non-negative score. -/
theorem health_metrics_bounds (ig : Graph) (cycles : Option (List Cycle))
    (hotspots : Option (List Hotspot)) (layers : Option Layers) :
    0 ≤ (calculate_health_metrics ig cycles hotspots layers).health_score ∧
    (calculate_health_metrics ig cycles hotspots layers).health_score ≤ 100 ∧
    (calculate_health_metrics ig cycles hotspots layers).fragility_score ≤ 100 ∧
    (topScoreOK hotspots = true →
      0 ≤ (calculate_health_metrics ig cycles hotspots layers).fragility_score) := by
  unfold calculate_health_metrics
  dsimp only
  refine ⟨le_max_right _ _, ?_, min_le_right _ _, ?_⟩
  · have h1 := cyclePenalty_nonneg cycles
    have h2 := densityPenalty_nonneg (densityOf ig)
    have h3 := hotspotPenalty_nonneg hotspots
    exact max_le (by linarith) (by norm_num)
  · intro hok
    exact le_min (fragilityRaw_nonneg _ (densityOf_nonneg ig) _ _ hok) (by norm_num)

/-- Witness for C5 (amended) at a concrete empty input. -/
theorem health_metrics_bounds_witness :
    0 ≤ (calculate_health_metrics { nodes := [], edges := [] } none none none).fragility_score :=
  (health_metrics_bounds { nodes := [], edges := [] } none none none).2.2.2 (by decide)

/-- Counterexample for C5 as stated: a supplied hotspot with score -1
drives fragility_score below 0. -/
theorem fragility_negative_counterexample :
    (calculate_health_metrics { nodes := [], edges := [] } none (some [badHot])
      none).fragility_score < 0 := by
  with_unfolding_all decide

/-- Claim C6: on the three-node ring with one supplied cycle of size 3,
density is 1/2, the cycle penalty is 5, the density penalty is 20, the
health score is 100 - 5 - 20 = 75 and the grade is C. -/
theorem health_scenario_abc :
    (calculate_health_metrics g3x (some [{ nodes := ["A", "B", "C"], size := 3 }]) none
      none).density = 1 / 2 ∧
    cyclePenalty (some [{ nodes := ["A", "B", "C"], size := 3 }]) = 5 ∧
    densityPenalty (1 / 2) = 20 ∧
    (calculate_health_metrics g3x (some [{ nodes := ["A", "B", "C"], size := 3 }]) none
      none).health_score = 100 - 5 - 20 ∧
    (calculate_health_metrics g3x (some [{ nodes := ["A", "B", "C"], size := 3 }]) none
      none).health_grade = "C" := by
  with_unfolding_all decide

/-- Claim C9: interpret_graph_summary changes only the
architectural_insights field of its input, setting it to the computed
insights, and leaves statistics, top_hotspots and every other field
unchanged; the other operations are pure functions of their arguments in
this embedding. -/
theorem interpret_graph_summary_frame (gd : GraphData) :
    (interpret_graph_summary gd).statistics = gd.statistics ∧
    (interpret_graph_summary gd).top_hotspots = gd.top_hotspots ∧
    (interpret_graph_summary gd).rest = gd.rest ∧
    (interpret_graph_summary gd).architectural_insights = some (insightsOf gd) :=
  ⟨rfl, rfl, rfl, rfl⟩

/-- Claim C10: constructing the engine with an empty weights mapping
behaves identically to constructing it with no weights argument: both
fall back to the default weights, rank_hotspots is unchanged between the
two, and on a concrete one-node graph the resulting score is the
default-weighted 4/5 rather than 0. -/
theorem empty_weights_default :
    initWeights (some []) = DEFAULT_WEIGHTS ∧
    initWeights none = DEFAULT_WEIGHTS ∧
    (∀ ig cg, rank_hotspots (initWeights (some [])) ig cg =
      rank_hotspots (initWeights none) ig cg) ∧
    (rank_hotspots (initWeights (some [])) g1 none).map (fun h => h.score) = [4 / 5] ∧
    (rank_hotspots (initWeights (some [])) g1 none).map (fun h => h.score) ≠ [0] := by
  refine ⟨rfl, rfl, fun ig cg => rfl, ?_, ?_⟩
  · with_unfolding_all decide
  · with_unfolding_all decide

theorem piece_if_sublist (c : Prop) [Decidable c] (x : String) :
    (if c then [x] else []).Sublist [x] := by
  split
  · exact List.Sublist.refl _
  · exact List.nil_sublist _

theorem sublist_four {a b c d : String} {l1 l2 l3 l4 : List String}
    (h1 : l1.Sublist [a]) (h2 : l2.Sublist [b]) (h3 : l3.Sublist [c])
    (h4 : l4.Sublist [d]) : (l1 ++ l2 ++ l3 ++ l4).Sublist [a, b, c, d] := by
  have h := List.Sublist.append h1 (List.Sublist.append h2 (List.Sublist.append h3 h4))
  simpa [List.append_assoc] using h

/-- Claim C4 (amended): for every input, the emitted list is exactly the
concatenation, in the fixed order cycle-breaking, coupling-reduction,
hotspot-refactor, layering, of one string per rule whose guard holds:
cycle-breaking iff a non-empty cycles list is supplied, coupling-reduction
iff density > 0.3, hotspot-refactor iff a first hotspot exists with
in-degree > 30, and layering iff a NON-EMPTY layer map with at most two
entries is supplied (a supplied empty layer map is falsy and emits
nothing).  Hence at most one string per rule, a sublist of the four
candidate strings, the empty list when no guard holds, and exactly the
four strings in order in the scenario with cycles present, density 2/5,
top hotspot in-degree 40 and exactly two layers. -/
theorem recommendations_rules :
    (∀ (ig : Graph) (cycles : Option (List Cycle)) (hotspots : Option (List Hotspot))
        (layers : Option Layers),
      generate_recommendations ig cycles hotspots layers =
        (if condCyc cycles then [recCycles (cyLen cycles)] else []) ++
          (if condDen ig then [recCoupling (densityOf ig)] else []) ++
          (if condHot hotspots then [recHotspot (headHot hotspots)] else []) ++
          (if condLay layers then [recLayers] else []) ∧
      (generate_recommendations ig cycles hotspots layers).Sublist
        (recCandidates ig cycles hotspots) ∧
      (condCyc cycles = false → condDen ig = false → condHot hotspots = false →
        condLay layers = false →
        generate_recommendations ig cycles hotspots layers = [])) ∧
    densityOf gScn = 2 / 5 ∧
    generate_recommendations gScn (some [cyc12]) (some [h40]) (some lay2) =
      [recCycles 1, recCoupling (2 / 5), recHotspot h40, recLayers] := by
  refine ⟨?_, ?_, ?_⟩
  · intro ig cycles hotspots layers
    have heq : generate_recommendations ig cycles hotspots layers =
        (if condCyc cycles then [recCycles (cyLen cycles)] else []) ++
          (if condDen ig then [recCoupling (densityOf ig)] else []) ++
          (if condHot hotspots then [recHotspot (headHot hotspots)] else []) ++
          (if condLay layers then [recLayers] else []) := by
      rcases cycles with _ | cs <;> rcases hotspots with _ | (_ | ⟨h, hs⟩) <;>
        rcases layers with _ | ls <;>
        simp only [generate_recommendations, condCyc, condDen, condHot, condLay,
          headHot, cyLen, decide_eq_true_eq, Bool.false_eq_true, if_false,
          List.nil_append, List.append_nil]
    refine ⟨heq, ?_, ?_⟩
    · rw [heq]
      unfold recCandidates
      exact sublist_four (piece_if_sublist _ _) (piece_if_sublist _ _)
        (piece_if_sublist _ _) (piece_if_sublist _ _)
    · intro h1 h2 h3 h4
      rw [heq, h1, h2, h3, h4]
      rfl
  · with_unfolding_all decide
  · with_unfolding_all decide

/-- Witness for C4 (amended): with no rule firing the output is empty. -/
theorem recommendations_rules_witness :
    generate_recommendations { nodes := [], edges := [] } none none none = [] :=
  (recommendations_rules.1 { nodes := [], edges := [] } none none none).2.2 (by decide)
    (by with_unfolding_all decide) (by decide) (by decide)

/-- Counterexample for C4 as stated: a supplied EMPTY layer map has count
0, at most 2, yet the layering suggestion is not emitted. -/
theorem recommendations_layer_counterexample :
    ([] : Layers).length ≤ 2 ∧
    recLayers ∉ generate_recommendations { nodes := [], edges := [] } none none (some []) := by
  with_unfolding_all decide

end TheAuditor
